import Mathlib

/-!
Verification development for the CS469 secure MP3 client/server
(`src/server.c`, `src/client.c`, `src/CommunicationConstants.h`).

The C sources are shallowly embedded here:
strings are `List Char`, file bytes are `List Nat`, straight-line
effectful code becomes explicit traces or folds over the reply stream.
Each definition is annotated with the source function and lines it embeds.
-/

/-! ## Message codec (server.c `handle_rpc_request`, header constants) -/

/-- C `isspace` in the default locale: space (32) and the control
characters 9..13 (tab, newline, vertical tab, form feed, carriage return).
Used by `sscanf` whitespace handling in server.c:223. -/
def isSpace (c : Char) : Bool := c.toNat == 32 || (9 ≤ c.toNat && c.toNat ≤ 13)

/-- CommunicationConstants.h:12 `RPC_LIST_OPERATION = "LIST"`. -/
def kwLIST : List Char := ['L', 'I', 'S', 'T']

/-- CommunicationConstants.h:10 `RPC_SEARCH_OPERATION = "SEARCH"`. -/
def kwSEARCH : List Char := ['S', 'E', 'A', 'R', 'C', 'H']

/-- CommunicationConstants.h:11 `RPC_DOWNLOAD_OPERATION = "DOWNLOAD"`. -/
def kwDOWNLOAD : List Char := ['D', 'O', 'W', 'N', 'L', 'O', 'A', 'D']

/-- RPC error kinds named in CommunicationConstants.h:5-7. -/
inductive RpcErr
  | tooManyArgs
  | tooFewArgs
  | badOperation
deriving DecidableEq, Repr

/-- CommunicationConstants.h:5-7: `RPC_ERROR_TOO_MANY_ARGS = -1`,
`RPC_ERROR_TOO_FEW_ARGS = -2`, `RPC_ERROR_BAD_OPERATION = -3`. -/
def RpcErr.code : RpcErr → Int
  | .tooManyArgs => -1
  | .tooFewArgs => -2
  | .badOperation => -3

/-- A well-formed RPC request, as in spec section 3. -/
inductive Request
  | list
  | search (term : List Char)
  | download (name : List Char)
deriving DecidableEq, Repr

/-- Client-side request encoding: client.c:475 `sprintf(request, "%s", RPC_LIST_OPERATION)`,
client.c:494 `sprintf(requestMessage, "%s %s", RPC_SEARCH_OPERATION, searchTerm)`,
client.c:531 `sprintf(request, "%s %s", RPC_DOWNLOAD_OPERATION, fileName)`. -/
def encode : Request → List Char
  | .list => kwLIST
  | .search t => kwSEARCH ++ ' ' :: t
  | .download n => kwDOWNLOAD ++ ' ' :: n

/-- Result of the server's request decode and dispatch. -/
inductive DecodeResult
  | ok (r : Request)
  | err (e : RpcErr)
deriving DecidableEq, Repr

/-- Server request decode, embedding server.c:212-249 `handle_rpc_request`.

`sscanf(buffer, "%s %[^\n]", operation, argument)` (server.c:223) skips
leading whitespace, takes the maximal non-whitespace run as `operation`,
skips the following whitespace run (which, per scanf semantics, includes
newlines), and takes the remainder up to the next newline as `argument`
(assigned only if non-empty). `scanned_items` is 2 when `argument` is
assigned, 1 when only `operation` is, and EOF on an all-whitespace buffer
(which falls into the final `else`, server.c:244-248, like any count
other than 1 or 2). The branch structure below mirrors server.c:226-248. -/
def decodeRequest (buffer : List Char) : DecodeResult :=
  let t := buffer.dropWhile isSpace
  if t.isEmpty then
    DecodeResult.err RpcErr.tooFewArgs
  else
    let operation := t.takeWhile (fun c => !(isSpace c))
    let rest := (t.dropWhile (fun c => !(isSpace c))).dropWhile isSpace
    let argument := rest.takeWhile (fun c => !(c == '\n'))
    if argument.isEmpty then
      if operation = kwLIST then DecodeResult.ok Request.list
      else DecodeResult.err RpcErr.tooFewArgs
    else
      if operation = kwSEARCH then DecodeResult.ok (Request.search argument)
      else if operation = kwDOWNLOAD then DecodeResult.ok (Request.download argument)
      else DecodeResult.err RpcErr.badOperation

/-- Decimal rendering of an `int`, as `sprintf` `%d` produces it. -/
def intDecimalChars (i : Int) : List Char :=
  if i < 0 then '-' :: Nat.toDigits 10 i.natAbs else Nat.toDigits 10 i.toNat

/-- Error reply record for RPC errors: server.c:231,241,246
`sprintf(errorMsg, "%s %d", ERROR_RPC_ERROR, code)` with
`ERROR_RPC_ERROR = "RPCERROR"` (CommunicationConstants.h:16). -/
def rpcErrorWire (e : RpcErr) : List Char :=
  ['R', 'P', 'C', 'E', 'R', 'R', 'O', 'R', ' '] ++ intDecimalChars e.code

/-- Error reply record for file errors: server.c:321
`snprintf(errorMsg, ..., "%s %d", ERROR_FILE_ERROR, errno)` with
`ERROR_FILE_ERROR = "FILEERROR"` (CommunicationConstants.h:15). -/
def fileErrorWire (errnoVal : Int) : List Char :=
  ['F', 'I', 'L', 'E', 'E', 'R', 'R', 'O', 'R', ' '] ++ intDecimalChars errnoVal

/-- Validity of a SEARCH/DOWNLOAD argument for round-tripping: non-empty,
not starting with whitespace, and containing no newline. -/
def validArg (t : List Char) : Bool :=
  match t with
  | [] => false
  | c :: _ => !(isSpace c) && t.all (fun a => !(a == '\n'))

example : decodeRequest (encode Request.list) = DecodeResult.ok Request.list := by decide
example : decodeRequest (encode (Request.search ['a', ' ', 'b'])) =
    DecodeResult.ok (Request.search ['a', ' ', 'b']) := by decide
example : decodeRequest (encode (Request.search [' ', 'x'])) =
    DecodeResult.ok (Request.search ['x']) := by decide
example : decodeRequest ['F', 'O', 'O'] = DecodeResult.err RpcErr.tooFewArgs := by decide
example : decodeRequest ['F', 'O', 'O', ' ', 'b'] = DecodeResult.err RpcErr.badOperation := by
  decide
example : decodeRequest ['L', 'I', 'S', 'T', ' ', 'x'] = DecodeResult.err RpcErr.badOperation := by
  decide
example : rpcErrorWire RpcErr.badOperation =
    ['R', 'P', 'C', 'E', 'R', 'R', 'O', 'R', ' ', '-', '3'] := by decide

/-! ## Generic takeWhile/dropWhile helpers for symbolic request parsing -/

/-- takeWhile over an append stops exactly at the first failing element. -/
theorem takeWhile_append_stop {α : Type} (p : α → Bool) (xs : List α) (y : α) (ys : List α)
    (hxs : ∀ x ∈ xs, p x = true) (hy : p y = false) :
    (xs ++ y :: ys).takeWhile p = xs := by
  induction xs with
  | nil => simp [List.takeWhile_cons, hy]
  | cons a as ih =>
    have ha : p a = true := hxs a (List.mem_cons_self a as)
    simp only [List.cons_append, List.takeWhile_cons, ha, if_true]
    rw [ih (fun x hx => hxs x (List.mem_cons_of_mem a hx))]

/-- dropWhile over an append drops exactly through the first failing element. -/
theorem dropWhile_append_stop {α : Type} (p : α → Bool) (xs : List α) (y : α) (ys : List α)
    (hxs : ∀ x ∈ xs, p x = true) (hy : p y = false) :
    (xs ++ y :: ys).dropWhile p = y :: ys := by
  induction xs with
  | nil => simp [List.dropWhile_cons, hy]
  | cons a as ih =>
    have ha : p a = true := hxs a (List.mem_cons_self a as)
    simp only [List.cons_append, List.dropWhile_cons, ha, if_true]
    exact ih (fun x hx => hxs x (List.mem_cons_of_mem a hx))

/-- takeWhile keeps everything when the predicate holds throughout. -/
theorem takeWhile_of_all {α : Type} (p : α → Bool) (l : List α)
    (h : ∀ x ∈ l, p x = true) : l.takeWhile p = l := by
  induction l with
  | nil => rfl
  | cons a as ih =>
    have ha : p a = true := h a (List.mem_cons_self a as)
    simp only [List.takeWhile_cons, ha, if_true]
    rw [ih (fun x hx => h x (List.mem_cons_of_mem a hx))]

/-- dropWhile drops everything when the predicate holds throughout. -/
theorem dropWhile_of_all {α : Type} (p : α → Bool) (l : List α)
    (h : ∀ x ∈ l, p x = true) : l.dropWhile p = [] := by
  induction l with
  | nil => rfl
  | cons a as ih =>
    have ha : p a = true := h a (List.mem_cons_self a as)
    simp only [List.dropWhile_cons, ha, if_true]
    exact ih (fun x hx => h x (List.mem_cons_of_mem a hx))

/-- Facts packaged from `validArg`. -/
theorem validArg_spec (t : List Char) (h : validArg t = true) :
    t ≠ [] ∧ (∀ c ∈ t.take 1, isSpace c = false) ∧ ∀ c ∈ t, (c == '\n') = false := by
  match t with
  | [] => simp [validArg] at h
  | c :: t' =>
    simp only [validArg, Bool.and_eq_true, Bool.not_eq_true', List.all_eq_true] at h
    refine ⟨by simp, ?_, ?_⟩
    · intro x hx
      simp only [List.take_succ_cons, List.take_zero, List.mem_singleton] at hx
      subst hx; exact h.1
    · exact h.2

/-- Decode of `token ++ " " ++ arg` for a whitespace-free non-empty token and a
valid argument: the server dispatches on the token with the argument intact
(server.c:234-243, the `scanned_items == 2` branch). -/
theorem decodeRequest_token_arg (op : List Char) (t : List Char)
    (hop : op ≠ []) (hopns : ∀ c ∈ op, isSpace c = false)
    (ht : validArg t = true) :
    decodeRequest (op ++ ' ' :: t) =
      (if op = kwSEARCH then DecodeResult.ok (Request.search t)
       else if op = kwDOWNLOAD then DecodeResult.ok (Request.download t)
       else DecodeResult.err RpcErr.badOperation) := by
  obtain ⟨htne, hthead, htnl⟩ := validArg_spec t ht
  have hspace : isSpace ' ' = true := by decide
  have hne : ∀ c ∈ op, (!(isSpace c)) = true := by
    intro c hc; simp [hopns c hc]
  -- entry whitespace skip keeps the whole buffer
  have hdrop0 : (op ++ ' ' :: t).dropWhile isSpace = op ++ ' ' :: t := by
    match op, hop with
    | o :: os, _ =>
      have : isSpace o = false := hopns o (List.mem_cons_self o os)
      simp [List.dropWhile_cons, this]
  -- the operation token
  have hopeq : (op ++ ' ' :: t).takeWhile (fun c => !(isSpace c)) = op :=
    takeWhile_append_stop _ op ' ' t hne (by simp [hspace])
  -- the rest after the token, then after the whitespace run
  have hrest : ((op ++ ' ' :: t).dropWhile (fun c => !(isSpace c))).dropWhile isSpace = t := by
    rw [dropWhile_append_stop _ op ' ' t hne (by simp [hspace])]
    rw [List.dropWhile_cons_of_pos hspace]
    match t, htne with
    | c :: t', _ =>
      have : isSpace c = false := hthead c (by simp)
      simp [List.dropWhile_cons, this]
  -- the argument is the whole remainder
  have harg : t.takeWhile (fun c => !(c == '\n')) = t :=
    takeWhile_of_all _ t (by intro c hc; simp [htnl c hc])
  simp only [decodeRequest, hdrop0, hopeq, hrest, harg]
  have : (op ++ ' ' :: t).isEmpty = false := by
    match op, hop with
    | o :: os, _ => rfl
  simp only [this, Bool.false_eq_true, if_false]
  have : t.isEmpty = false := by
    match t, htne with
    | c :: t', _ => rfl
  simp only [this, Bool.false_eq_true, if_false]

/-- Decode of a lone whitespace-free non-empty token: the server takes the
`scanned_items == 1` branch (server.c:226-233), accepting only `LIST` and
answering `TOO_FEW_ARGS` for every other token. -/
theorem decodeRequest_token_only (op : List Char)
    (hop : op ≠ []) (hopns : ∀ c ∈ op, isSpace c = false) :
    decodeRequest op =
      (if op = kwLIST then DecodeResult.ok Request.list
       else DecodeResult.err RpcErr.tooFewArgs) := by
  have hne : ∀ c ∈ op, (!(isSpace c)) = true := by
    intro c hc; simp [hopns c hc]
  have hdrop0 : op.dropWhile isSpace = op := by
    match op, hop with
    | o :: os, _ =>
      have : isSpace o = false := hopns o (List.mem_cons_self o os)
      simp [List.dropWhile_cons, this]
  have hopeq : op.takeWhile (fun c => !(isSpace c)) = op := takeWhile_of_all _ op hne
  have hrest : (op.dropWhile (fun c => !(isSpace c))).dropWhile isSpace = [] := by
    rw [dropWhile_of_all _ op hne]; rfl
  simp only [decodeRequest, hdrop0, hopeq, hrest]
  have : op.isEmpty = false := by
    match op, hop with
    | o :: os, _ => rfl
  simp only [this, Bool.false_eq_true, if_false, List.takeWhile_nil, List.isEmpty_nil, if_true]

/-! ## Claims C4, C5, C6, C8: codec properties -/

/-- Validity of a whole request for round-tripping (spec section 3's invariant,
with the argument restrictions that `sscanf` parsing imposes). -/
def validRequest : Request → Bool
  | .list => true
  | .search t => validArg t
  | .download n => validArg n

/-- C4 counterexample: the argument `" x"` contains a space and no newline, so
the claim admits it, yet `decode(encode(SEARCH " x"))` returns `SEARCH "x"`:
the scanf whitespace run between operation and argument swallows the
argument's leading space, so the round trip is not the identity. -/
theorem decode_encode_not_id_on_leading_space :
    decodeRequest (encode (Request.search [' ', 'x'])) ≠
      DecodeResult.ok (Request.search [' ', 'x']) := by decide

/-- C4 (amended): for LIST, and for SEARCH/DOWNLOAD whose argument is
non-empty, does not begin with whitespace, and contains no newline,
decoding the encoding returns exactly the original request. -/
theorem decode_encode_roundtrip (r : Request) (hv : validRequest r = true) :
    decodeRequest (encode r) = DecodeResult.ok r := by
  match r with
  | .list => decide
  | .search t =>
    have ht : validArg t = true := hv
    have := decodeRequest_token_arg kwSEARCH t (by decide) (by decide) ht
    rw [encode, this, if_pos rfl]
  | .download n =>
    have hn : validArg n = true := hv
    have := decodeRequest_token_arg kwDOWNLOAD n (by decide) (by decide) hn
    rw [encode, this, if_neg (by decide), if_pos rfl]

/-- C4 witness: the round trip at the concrete request `SEARCH "ab"`. -/
theorem decode_encode_roundtrip_witness :
    decodeRequest (encode (Request.search ['a', 'b'])) =
      DecodeResult.ok (Request.search ['a', 'b']) :=
  decode_encode_roundtrip (Request.search ['a', 'b']) (by decide)

/-- C5 counterexample: the unknown operation token `FOO` sent with no
remainder decodes to `TOO_FEW_ARGS` (server.c:229-233), not to
`BAD_OPERATION` as the claim states. -/
theorem decode_unknown_token_alone_not_bad_operation :
    decodeRequest ['F', 'O', 'O'] = DecodeResult.err RpcErr.tooFewArgs ∧
      decodeRequest ['F', 'O', 'O'] ≠ DecodeResult.err RpcErr.badOperation := by decide

/-- C5 (amended): an unknown first token (whitespace-free, matching none of
LIST/SEARCH/DOWNLOAD) decodes to `BAD_OPERATION` only when a non-empty
remainder is present; with no remainder it decodes to `TOO_FEW_ARGS`. -/
theorem decode_unknown_token (op : List Char)
    (hop : op ≠ []) (hopns : ∀ c ∈ op, isSpace c = false)
    (hnl : op ≠ kwLIST) (hns : op ≠ kwSEARCH) (hnd : op ≠ kwDOWNLOAD) :
    decodeRequest op = DecodeResult.err RpcErr.tooFewArgs ∧
      ∀ t, validArg t = true →
        decodeRequest (op ++ ' ' :: t) = DecodeResult.err RpcErr.badOperation := by
  constructor
  · rw [decodeRequest_token_only op hop hopns, if_neg hnl]
  · intro t ht
    rw [decodeRequest_token_arg op t hop hopns ht, if_neg hns, if_neg hnd]

/-- C5 witness: the amended behavior at the concrete token `FOO` with and
without the remainder `b`. -/
theorem decode_unknown_token_witness :
    decodeRequest ['F', 'O', 'O'] = DecodeResult.err RpcErr.tooFewArgs ∧
      decodeRequest (['F', 'O', 'O'] ++ ' ' :: ['b']) =
        DecodeResult.err RpcErr.badOperation := by
  have h := decode_unknown_token ['F', 'O', 'O'] (by decide) (by decide)
    (by decide) (by decide) (by decide)
  exact ⟨h.1, h.2 ['b'] (by decide)⟩

/-- C6 counterexample: the wire code for a bad operation is
`RPC_ERROR_BAD_OPERATION = -3` (CommunicationConstants.h:7), not `-1`:
the error record sent for a bad operation is `"RPCERROR -3"`. -/
theorem bad_operation_code_is_not_minus_one :
    RpcErr.code RpcErr.badOperation ≠ -1 ∧
      rpcErrorWire RpcErr.badOperation ≠
        ['R', 'P', 'C', 'E', 'R', 'R', 'O', 'R', ' ', '-', '1'] := by decide

/-- C6 (amended): in every RPCERROR reply the code sent on the wire is `-1`
for too many arguments, `-2` for too few arguments, and `-3` for a bad
operation, exactly the constants of CommunicationConstants.h:5-7 rendered
by `sprintf "%s %d"`. -/
theorem rpc_error_wire_codes :
    RpcErr.code RpcErr.tooManyArgs = -1 ∧
      RpcErr.code RpcErr.tooFewArgs = -2 ∧
      RpcErr.code RpcErr.badOperation = -3 ∧
      rpcErrorWire RpcErr.tooManyArgs =
        ['R', 'P', 'C', 'E', 'R', 'R', 'O', 'R', ' ', '-', '1'] ∧
      rpcErrorWire RpcErr.tooFewArgs =
        ['R', 'P', 'C', 'E', 'R', 'R', 'O', 'R', ' ', '-', '2'] ∧
      rpcErrorWire RpcErr.badOperation =
        ['R', 'P', 'C', 'E', 'R', 'R', 'O', 'R', ' ', '-', '3'] := by decide

/-- C8 counterexample: the request `LIST x` is not accepted as a LIST: the
`scanned_items == 2` branch (server.c:234-243) compares the token only
against SEARCH and DOWNLOAD, so `LIST` with a remainder falls into the
`BAD_OPERATION` reply. -/
theorem list_with_remainder_not_accepted :
    decodeRequest ['L', 'I', 'S', 'T', ' ', 'x'] = DecodeResult.err RpcErr.badOperation ∧
      decodeRequest ['L', 'I', 'S', 'T', ' ', 'x'] ≠ DecodeResult.ok Request.list := by decide

/-- C8 (amended): a LIST request with any non-empty remainder is rejected
with a `BAD_OPERATION` RPC error instead of being accepted with the
argument ignored. -/
theorem decode_list_with_remainder_rejected (t : List Char) (ht : validArg t = true) :
    decodeRequest (kwLIST ++ ' ' :: t) = DecodeResult.err RpcErr.badOperation := by
  rw [decodeRequest_token_arg kwLIST t (by decide) (by decide) ht,
    if_neg (by decide), if_neg (by decide)]

/-- C8 witness: the rejection at the concrete remainder `extra`. -/
theorem decode_list_with_remainder_rejected_witness :
    decodeRequest (kwLIST ++ ' ' :: ['e', 'x', 't', 'r', 'a']) =
      DecodeResult.err RpcErr.badOperation :=
  decode_list_with_remainder_rejected ['e', 'x', 't', 'r', 'a'] (by decide)

/-! ## Claim C7: LIST and SEARCH over the served directory -/

/-- Leading-segment test: `leadsWith needle l` holds when `needle` occurs at
the very start of `l`. -/
def leadsWith {α : Type} [BEq α] : List α → List α → Bool
  | [], _ => true
  | _ :: _, [] => false
  | a :: as, b :: bs => a == b && leadsWith as bs

/-- C `strstr(hay, needle) != NULL`: `needle` occurs contiguously somewhere
inside `hay` (an empty needle matches everywhere, as `strstr` does). -/
def strstrB {α : Type} [BEq α] (hay needle : List α) : Bool :=
  match hay with
  | [] => leadsWith needle []
  | _ :: rest => leadsWith needle hay || strstrB rest needle

example : strstrB ['a', 'b', 'c', 'd'] ['b', 'c'] = true := by decide
example : strstrB ['a', 'b', 'c', 'd'] ['b', 'd'] = false := by decide
example : strstrB ['a', 'b'] ([] : List Char) = true := by decide

/-- One directory entry as `readdir` yields it: a name and whether
`d_type == DT_REG` (regular file). -/
structure DirEntry where
  name : List Char
  isRegularFile : Bool
deriving DecidableEq, Repr

/-- The extension marker `".mp3"` used by server.c:269 and 297. -/
def mp3Marker : List Char := ['.', 'm', 'p', '3']

/-- server.c:257-276 `list_files`: emit every directory entry that is a
regular file and whose name contains `".mp3"` (`strstr(d_name, ".mp3")`),
in directory order. -/
def list_files (dir : List DirEntry) : List (List Char) :=
  (dir.filter (fun e => e.isRegularFile && strstrB e.name mp3Marker)).map DirEntry.name

/-- server.c:285-304 `search_files`: emit every directory entry that is a
regular file, whose name contains the search term
(`strstr(d_name, search_term)`), and whose name contains `".mp3"`. -/
def search_files (dir : List DirEntry) (term : List Char) : List (List Char) :=
  (dir.filter (fun e =>
    e.isRegularFile && strstrB e.name term && strstrB e.name mp3Marker)).map DirEntry.name

example :
    search_files
      [⟨['a', '.', 'm', 'p', '3'], true⟩, ⟨['b', '.', 'm', 'p', '3'], true⟩,
       ⟨['a', '.', 't', 'x', 't'], true⟩, ⟨['a', '.', 'm', 'p', '3'], false⟩] ['a'] =
      [['a', '.', 'm', 'p', '3']] := by decide

/-- C7: for any served directory and search term `t`, the filenames emitted
for `SEARCH t` are exactly those emitted for `LIST` whose name contains `t`
as a case-sensitive substring (in the same order), and every name emitted by
`SEARCH` contains the `".mp3"` extension marker. -/
theorem search_files_filters_list_files (dir : List DirEntry) (t : List Char) :
    search_files dir t = (list_files dir).filter (fun n => strstrB n t) ∧
      (search_files dir t).all (fun n => strstrB n mp3Marker) = true := by
  constructor
  · induction dir with
    | nil => rfl
    | cons e es ih =>
      simp only [search_files, list_files, List.filter_cons] at ih ⊢
      cases hr : e.isRegularFile <;> cases hti : strstrB e.name t <;>
        cases hm : strstrB e.name mp3Marker <;>
        simp [hr, hti, hm, List.filter_cons, ih]
  · rw [List.all_eq_true]
    intro n hn
    simp only [search_files, List.mem_map, List.mem_filter] at hn
    obtain ⟨e, ⟨_, hcond⟩, hne⟩ := hn
    have h2 := (Bool.and_eq_true _ _).mp hcond
    rw [← hne]
    exact h2.2

/-! ## File stream transfer (server.c `send_file_with_hash`, client.c `downloadMP3`) -/

/-- ASCII bytes of a character list, for putting text records on the byte wire. -/
def charsToBytes (s : List Char) : List Nat := s.map Char.toNat

/-- Chunking of the file into reads of at most `BUFFER_SIZE = 256` bytes
(server.c:333 `fread(buffer, 1, BUFFER_SIZE, file)`); the fuel argument is
instantiated with the list length, which bounds the number of reads. -/
def fileChunksAux : Nat → List Nat → List (List Nat)
  | _, [] => []
  | 0, l => [l]
  | fuel + 1, l => l.take 256 :: fileChunksAux fuel (l.drop 256)

/-- The sequence of content chunks `fread` yields for a file. -/
def fileChunks (l : List Nat) : List (List Nat) := fileChunksAux l.length l

/-- server.c:313-343 `send_file_with_hash`: when `fopen` fails the reply is
exactly one `FILEERROR <errno>` record (server.c:319-324); otherwise the
reply is every content chunk in order followed by one `HASH_SIZE = 32` byte
digest block (server.c:333-340). The digest function is a parameter
standing for OpenSSL's incremental SHA-256, whose streaming update over the
chunks equals the digest of the concatenated content. -/
def send_file_with_hash (digest : List Nat → List Nat) (errnoVal : Int) :
    Option (List Nat) → List (List Nat)
  | none => [charsToBytes (fileErrorWire errnoVal)]
  | some content => fileChunks content ++ [digest content]

/-- C `isspace` on a byte, as in `isSpace`. -/
def isSpaceByte (b : Nat) : Bool := b == 32 || (9 ≤ b && b ≤ 13)

/-- The tag `sscanf(buffer, "%10s %d", serverError, &serverErrno)` extracts
from a received chunk (client.c:553): the chunk is cut at its first NUL
(the client writes a terminator at the end, client.c:551), leading
whitespace is skipped, and the first whitespace-free run is read, at most
10 characters of it. -/
def chunkErrTag (chunk : List Nat) : List Nat :=
  (((chunk.takeWhile (fun b => !(b == 0))).dropWhile isSpaceByte).takeWhile
    (fun b => !(isSpaceByte b))).take 10

/-- client.c:554-567: a chunk is treated as a server error record exactly
when its leading token is `FILEERROR` or `RPCERROR`; in either case the
client calls `exit(EXIT_FAILURE)`. -/
def chunkIsErrorRecord (chunk : List Nat) : Bool :=
  chunkErrTag chunk == charsToBytes ['F', 'I', 'L', 'E', 'E', 'R', 'R', 'O', 'R'] ||
    chunkErrTag chunk == charsToBytes ['R', 'P', 'C', 'E', 'R', 'R', 'O', 'R']

/-- The receive loop of client.c:550-582 as it acts on the local file: every
chunk is checked for the error-record shape; an error record aborts the
process (`none`); every other chunk is appended in full (`write(writefd,
buffer, rcount)`, client.c:577) to the file being accumulated. -/
def downloadReceive : List (List Nat) → List Nat → Option (List Nat)
  | [], acc => some acc
  | c :: rest, acc =>
    if chunkIsErrorRecord c then none
    else downloadReceive rest (acc ++ c)

/-- Possible ends of one `downloadMP3` invocation: `procExit` when an error
record makes it call `exit(EXIT_FAILURE)` (client.c:556, 566), `success`
when the stream ends and it returns `EXIT_SUCCESS` (client.c:593),
`failure` when `SSL_read` reports an error and it returns `EXIT_FAILURE`
(client.c:584-586). -/
inductive AttemptResult
  | procExit
  | success
  | failure
deriving DecidableEq, Repr

/-- The outcome of one attempt, determined by the reply stream: the first
error-shaped chunk exits the process, an exhausted stream is a success. -/
def downloadAttempt : List (List Nat) → AttemptResult
  | [] => .success
  | c :: rest => if chunkIsErrorRecord c then .procExit else downloadAttempt rest

/-- client.c:58 `MAX_RETRIES`. -/
def MAX_RETRIES : Nat := 3

/-- How the client's download loop ends: the whole process exits from inside
an attempt, or the `while` loop finishes and the menu continues. Carries
the number of `downloadMP3` calls made (each opens a fresh session). -/
inductive LoopEnd
  | processExited (attempts : Nat)
  | loopDone (attempts : Nat)
deriving DecidableEq, Repr

/-- client.c:272-275: `downloadTries = 1; while (downloadMP3(...) !=
EXIT_SUCCESS && downloadTries <= MAX_RETRIES) { printf(...); }`.
`results k` is the outcome of the `k`-th `downloadMP3` call;
`downloadTries` is passed along unchanged because no statement in the loop
modifies it. `none` means the loop is still running after `fuel`
iterations. -/
def downloadRetryLoop (results : Nat → AttemptResult) (downloadTries : Nat) (k : Nat) :
    Nat → Option LoopEnd
  | 0 => none
  | fuel + 1 =>
    match results k with
    | .procExit => some (.processExited (k + 1))
    | .success => some (.loopDone (k + 1))
    | .failure =>
      if downloadTries ≤ MAX_RETRIES then downloadRetryLoop results downloadTries (k + 1) fuel
      else some (.loopDone (k + 1))

/-! ## Claim C1: DOWNLOAD of a missing file -/

/-- C1: for a DOWNLOAD naming a file the server cannot open, the server does
send exactly one FILE_ERROR record, but the client performs no retries: the
first attempt recognizes the record and exits the whole process (one
attempt, not `1 + MAX_RETRIES`); moreover, had an attempt merely returned
failure, the loop would never stop, because `downloadTries` stays `1` and
the `downloadTries <= MAX_RETRIES` bound never fails. The errno value `2`
is `ENOENT`. -/
theorem download_missing_file_exits_without_retry :
    (∀ (digest : List Nat → List Nat) (e : Int),
        send_file_with_hash digest e none = [charsToBytes (fileErrorWire e)]) ∧
      chunkIsErrorRecord (charsToBytes (fileErrorWire 2)) = true ∧
      downloadAttempt [charsToBytes (fileErrorWire 2)] = AttemptResult.procExit ∧
      (∀ fuel : Nat,
        downloadRetryLoop (fun _ => AttemptResult.procExit) 1 0 (fuel + 1) =
          some (LoopEnd.processExited 1)) ∧
      (∀ fuel : Nat, downloadRetryLoop (fun _ => AttemptResult.failure) 1 0 fuel = none) := by
  refine ⟨fun digest e => rfl, by decide, by decide, fun fuel => rfl, ?_⟩
  have key : ∀ fuel k : Nat,
      downloadRetryLoop (fun _ => AttemptResult.failure) 1 k fuel = none := by
    intro fuel
    induction fuel with
    | zero => intro k; rfl
    | succ n ih => intro k; simp [downloadRetryLoop, MAX_RETRIES, ih]
  intro fuel
  exact key fuel 0

/-! ## Claim C2: DOWNLOAD of an existing file -/

/-- Concatenating the `fread` chunks restores the file content. -/
theorem fileChunksAux_join (fuel : Nat) :
    ∀ l : List Nat, l.length ≤ fuel → (fileChunksAux fuel l).flatten = l := by
  induction fuel with
  | zero =>
    intro l hl
    have : l = [] := List.eq_nil_of_length_eq_zero (Nat.le_zero.mp hl)
    subst this
    rfl
  | succ n ih =>
    intro l hl
    match l with
    | [] => rfl
    | x :: xs =>
      show ((x :: xs).take 256 :: fileChunksAux n ((x :: xs).drop 256)).flatten = x :: xs
      rw [List.flatten_cons, ih _ ?_]
      · exact List.take_append_drop 256 (x :: xs)
      · rw [List.length_drop]
        have hlen : (x :: xs).length ≤ n + 1 := hl
        omega

/-- Joining `fileChunks` gives back the file. -/
theorem fileChunks_join (l : List Nat) : (fileChunks l).flatten = l :=
  fileChunksAux_join l.length l (Nat.le_refl _)

/-- When no chunk has the error-record shape, the receive loop appends every
chunk to the accumulated file. -/
theorem downloadReceive_clean (chs : List (List Nat))
    (h : ∀ ch ∈ chs, chunkIsErrorRecord ch = false) :
    ∀ acc : List Nat, downloadReceive chs acc = some (acc ++ chs.flatten) := by
  induction chs with
  | nil => intro acc; simp [downloadReceive]
  | cons c rest ih =>
    intro acc
    have hc : chunkIsErrorRecord c = false := h c (List.mem_cons_self c rest)
    rw [downloadReceive, if_neg (by simp [hc])]
    rw [ih (fun ch hch => h ch (List.mem_cons_of_mem c hch)) (acc ++ c)]
    simp [List.flatten]

/-- C2: for a DOWNLOAD of an existing file whose reply chunks do not
accidentally look like error records, the file the client ends up with is
the server file's bytes followed by the entire 32-byte digest block — not
the file's bytes — and the client computes no digest at all (client.c has
no digest computation; every received chunk, the trailing digest block
included, is written to the local file by client.c:577). -/
theorem download_stores_digest_block_in_file
    (digest : List Nat → List Nat) (e : Int) (content : List Nat)
    (hlen : (digest content).length = 32)
    (hclean : ∀ ch ∈ send_file_with_hash digest e (some content),
      chunkIsErrorRecord ch = false) :
    downloadReceive (send_file_with_hash digest e (some content)) [] =
        some (content ++ digest content) ∧
      content ++ digest content ≠ content := by
  constructor
  · rw [downloadReceive_clean _ hclean []]
    show some (send_file_with_hash digest e (some content)).flatten =
      some (content ++ digest content)
    rw [show send_file_with_hash digest e (some content) =
        fileChunks content ++ [digest content] from rfl]
    rw [List.flatten_append, fileChunks_join]
    simp [List.flatten]
  · intro hEq
    have := congrArg List.length hEq
    rw [List.length_append, hlen] at this
    omega

/-- C2 witness: a one-byte file `[77]` with a placeholder 32-byte digest
function; the client's local file is the byte followed by the digest block. -/
theorem download_stores_digest_block_in_file_witness :
    downloadReceive
        (send_file_with_hash (fun _ => List.replicate 32 0) 2 (some [77])) [] =
        some ([77] ++ List.replicate 32 0) ∧
      [77] ++ List.replicate 32 0 ≠ [77] :=
  download_stores_digest_block_in_file (fun _ => List.replicate 32 0) 2 [77]
    (by simp) (by decide)

/-! ## Claim C3: the client's LIST and SEARCH pipeline -/

/-- Observable steps of one client request function, in program order:
session setup (`initialize_connection`), a secure write, a secure read, a
line printed to the terminal, session teardown (`close_ssl_connection`). -/
inductive ClientAction
  | openSession
  | sslWrite (msg : List Char)
  | sslRead
  | printLine (msg : List Char)
  | closeSession
deriving DecidableEq, Repr

/-- The local status line `printf("Client: Successfully sent message ...")`
of client.c:482 and 500, not derived from any server data. -/
def sentNotice : List Char := ("Client: Successfully sent message").toList

/-- client.c:469-487 `requestAvailableDownloads`, step by step:
`initialize_connection` (473), `sprintf(request, "%s", RPC_LIST_OPERATION)`
and `SSL_write` (475-477), the success `printf` (482), and
`close_ssl_connection` (486). No other statement runs on the success path;
in particular there is no `SSL_read`. -/
def requestAvailableDownloadsTrace : List ClientAction :=
  [ClientAction.openSession, ClientAction.sslWrite (encode Request.list),
    ClientAction.printLine sentNotice, ClientAction.closeSession]

/-- client.c:492 fixes `searchTerm` to the literal `"Sprouts"`. -/
def searchTermSprouts : List Char := ['S', 'p', 'r', 'o', 'u', 't', 's']

/-- client.c:489-504 `searchAvailableDownloads`, step by step:
`initialize_connection` (493), `sprintf(..., "%s %s", RPC_SEARCH_OPERATION,
searchTerm)` and `SSL_write` (494-495), the success `printf` (500), and
`close_ssl_connection` (503). Again no `SSL_read`. -/
def searchAvailableDownloadsTrace : List ClientAction :=
  [ClientAction.openSession, ClientAction.sslWrite (encode (Request.search searchTermSprouts)),
    ClientAction.printLine sentNotice, ClientAction.closeSession]

/-- C3: the claim fails on the code: after sending a LIST or SEARCH request
the client performs no secure read at all, so the server's reply stream is
never consumed and no returned filename (nor any decoded error) can be
printed; the only print is the local "successfully sent" notice, and the
session is closed directly after it. The single-attempt part is accurate:
each menu selection runs the function exactly once. -/
theorem list_search_reply_never_consumed :
    requestAvailableDownloadsTrace.contains ClientAction.sslRead = false ∧
      searchAvailableDownloadsTrace.contains ClientAction.sslRead = false ∧
      ClientAction.sslWrite (encode Request.list) ∈ requestAvailableDownloadsTrace ∧
      ClientAction.sslWrite (encode (Request.search searchTermSprouts)) ∈
        searchAvailableDownloadsTrace ∧
      requestAvailableDownloadsTrace.getLast? = some ClientAction.closeSession := by
  decide

/-! ## Claim C9: the DOWNLOAD path is the raw join, unsanitized -/

/-- server.c:58 `MP3_DIR = "./sample-mp3s"`. -/
def mp3DirChars : List Char :=
  ['.', '/', 's', 'a', 'm', 'p', 'l', 'e', '-', 'm', 'p', '3', 's']

/-- server.c:314-315: `snprintf(filepath, sizeof(filepath), "%s/%s", MP3_DIR,
filename)` with `filepath[BUFFER_SIZE]`, `BUFFER_SIZE = 256`: the opened
path is the join `MP3_DIR ++ "/" ++ filename`, truncated by `snprintf` to
255 characters. The filename is the decoded argument exactly as the client
sent it; no branch of `send_file_with_hash` or `handle_rpc_request`
inspects or rejects it. -/
def filepathFor (filename : List Char) : List Char :=
  (mp3DirChars ++ '/' :: filename).take 255

/-- Modelled from the spec: POSIX path resolution, which the host filesystem
performs when the server opens the path and which no code in this
repository implements — split on `/` and process `.` (stay) and `..` (go up
one component). The claim's "lies outside the served directory" is read
against this resolution. -/
def splitSlash : List Char → List (List Char)
  | [] => [[]]
  | '/' :: rest => [] :: splitSlash rest
  | c :: rest =>
    match splitSlash rest with
    | [] => [[c]]
    | s :: ss => (c :: s) :: ss

/-- Modelled from the spec: the component stack after resolving `.`, `..`,
and empty components of a relative path. -/
def normComponents (cs : List (List Char)) : List (List Char) :=
  cs.foldl
    (fun acc comp =>
      if comp = [] ∨ comp = ['.'] then acc
      else if comp = ['.', '.'] then acc.dropLast
      else acc ++ [comp])
    []

/-- Resolved component list of a path. -/
def normalizePath (p : List Char) : List (List Char) := normComponents (splitSlash p)

example : normalizePath mp3DirChars = [['s', 'a', 'm', 'p', 'l', 'e', '-', 'm', 'p', '3', 's']] :=
  by decide

/-- C9: the server opens exactly `MP3_DIR ++ "/" ++ argument` for every
argument short enough for `snprintf`'s 255-character bound (and never
rejects any argument), and for the argument `../secret` the resolved path
has left the served directory: its resolution is not under the resolution
of `MP3_DIR`. -/
theorem download_path_join_unsanitized :
    (∀ filename : List Char, mp3DirChars.length + 1 + filename.length ≤ 255 →
        filepathFor filename = mp3DirChars ++ '/' :: filename) ∧
      normalizePath (filepathFor ['.', '.', '/', 's', 'e', 'c', 'r', 'e', 't']) =
        [['s', 'e', 'c', 'r', 'e', 't']] ∧
      (normalizePath mp3DirChars).isPrefixOf
        (normalizePath (filepathFor ['.', '.', '/', 's', 'e', 'c', 'r', 'e', 't'])) = false := by
  refine ⟨?_, by decide, by decide⟩
  intro filename hlen
  rw [filepathFor]
  apply List.take_of_length_le
  rw [List.length_append, List.length_cons]
  omega

/-- C9 witness: the join at the concrete in-bounds filename `a.mp3`. -/
theorem download_path_join_unsanitized_witness :
    filepathFor ['a', '.', 'm', 'p', '3'] = mp3DirChars ++ '/' :: ['a', '.', 'm', 'p', '3'] :=
  download_path_join_unsanitized.1 ['a', '.', 'm', 'p', '3'] (by decide)

/-! ## Claim C10: playback stop semantics -/

/-- Client playback state: the shared flag `*stopPlaying` (client.c:82,232:
`-1` idle or stop-requested, `0` playing, set under `mutexPlaying`) and
whether a playback task is live. -/
structure PlaybackState where
  stopPlaying : Int
  taskRunning : Bool
deriving DecidableEq, Repr

/-- Modelled from the spec: the playback task's body is `playAudio`
(client.c:306) from `playaudio.h`, which is not among the sources; per spec
section 4.6 the task "must poll the shared flag cooperatively" and exits
when it observes the stop request. One poll of the flag: the task exits
exactly when it reads the stop value `-1`. -/
def playAudioPollExits (flag : Int) : Bool := flag == -1

/-- client.c:318 `pthread_join(*ptid, NULL)`: wait, poll after poll, until
the playback task observes the flag and exits; `none` means the task has
not exited within `fuel` polls and the caller is still blocked. -/
def joinPlayback (flag : Int) : Nat → Option Unit
  | 0 => none
  | fuel + 1 => if playAudioPollExits flag then some () else joinPlayback flag fuel

/-- client.c:311-322 `stopMP3`: set `*stopPlaying = -1` under the mutex
(313-315), then `pthread_join` (318); on return the playback task has
exited. -/
def stopMP3 (s : PlaybackState) (fuel : Nat) : Option PlaybackState :=
  let s1 : PlaybackState := { s with stopPlaying := -1 }
  (joinPlayback s1.stopPlaying fuel).map (fun _ => { s1 with taskRunning := false })

/-- Outcome of the STOP_MP3 menu action as seen by the caller. -/
inductive StopOutcome
  | stopped
  | notPlaying
deriving DecidableEq, Repr

/-- client.c:284-286, the STOP_MP3 menu case: `if (stopFlag == 0) {
stopMP3(&ptid); }` — `stopMP3` (and its blocking join) runs only when the
flag says a playback is active; otherwise the action finishes at once
without touching the playback state. -/
def stopMenuCase (s : PlaybackState) (fuel : Nat) : Option (PlaybackState × StopOutcome) :=
  if s.stopPlaying == 0 then
    (stopMP3 s fuel).map (fun s1 => (s1, StopOutcome.stopped))
  else some (s, StopOutcome.notPlaying)

/-- C10: with no active playback (flag not 0) the stop action returns the
not-playing outcome at once — for every fuel, even zero polls, so it never
blocks and never joins; with an active playback (flag 0) it returns, for
any positive fuel, only the state in which the background task has fully
exited; and a join can return at all only in a poll where the task observed
the stop flag and exited. -/
theorem stop_returns_after_task_exits (s : PlaybackState) :
    (s.stopPlaying ≠ 0 → ∀ fuel : Nat,
        stopMenuCase s fuel = some (s, StopOutcome.notPlaying)) ∧
      (s.stopPlaying = 0 → ∀ fuel : Nat,
        stopMenuCase s (fuel + 1) =
          some ({ stopPlaying := -1, taskRunning := false }, StopOutcome.stopped)) ∧
      ∀ (flag : Int) (fuel : Nat), joinPlayback flag fuel = some () →
        playAudioPollExits flag = true := by
  refine ⟨?_, ?_, ?_⟩
  · intro h fuel
    have hb : (s.stopPlaying == 0) = false := by simp [h]
    simp [stopMenuCase, hb]
  · intro h fuel
    simp [stopMenuCase, h, stopMP3, joinPlayback, playAudioPollExits]
  · intro flag fuel
    induction fuel with
    | zero => intro h; simp [joinPlayback] at h
    | succ n ih =>
      intro h
      by_cases hp : playAudioPollExits flag = true
      · exact hp
      · rw [joinPlayback, if_neg hp] at h
        exact ih h

/-- C10 witness: an idle state returns not-playing with zero polls; a
playing state with one poll of fuel returns with the task exited. -/
theorem stop_returns_after_task_exits_witness :
    stopMenuCase ⟨-1, false⟩ 0 = some (⟨-1, false⟩, StopOutcome.notPlaying) ∧
      stopMenuCase ⟨0, true⟩ 1 =
        some ({ stopPlaying := -1, taskRunning := false }, StopOutcome.stopped) :=
  ⟨(stop_returns_after_task_exits ⟨-1, false⟩).1 (by decide) 0,
    (stop_returns_after_task_exits ⟨0, true⟩).2.1 rfl 0⟩
